import Mathlib

set_option maxRecDepth 8000
set_option maxHeartbeats 1000000

/-!
Verification of the disk-geometry resolution and track-materialization engine
of `raw2imd.c` (raw/flat diskette image to IMD converter).  The definitions
below are a shallow embedding of the C source: C `int` values that are
provably non-negative on the modelled domain are `Nat`, other integers are
`Int`, the raw source file is modelled as a byte function plus a size with
POSIX regular-file read semantics, and the potentially diverging probe loop
of `mkskew` is modelled with explicit fuel (fuel `secs` covers one full cycle
of the wrap-around walk, so running out of fuel corresponds exactly to the C
loop cycling forever).
-/

/-! ## Skew table builder (`mkskew`, raw2imd.c lines 331-363) -/

/-- One collision-resolution step of the probe loop in `mkskew`
(lines 347-349): `sn += nudge; if (sn < 0) sn = secs-1; if (sn >= secs) sn = 0;`. -/
def nudgeStep (secs : Nat) (nudge : Int) (sn : Nat) : Nat :=
  let s1 : Int := (sn : Int) + nudge
  let s2 : Int := if s1 < 0 then (secs : Int) - 1 else s1
  (if (secs : Int) ≤ s2 then 0 else s2).toNat

/-- The `while (tbl[sn] >= 0)` probe loop of `mkskew` (lines 346-350),
with explicit fuel.  `none` means the fuel ran out, i.e. the C loop would
cycle without finding an unfilled slot. -/
def probe (tbl : List Int) (secs : Nat) (nudge : Int) : Nat → Nat → Option Nat
  | 0, _ => none
  | fuel+1, sn =>
      if 0 ≤ tbl.getD sn 0 then probe tbl secs nudge fuel (nudgeStep secs nudge sn)
      else some sn

/-- The `for (s = 0; s < secs; ++s)` loop of `mkskew` (lines 342-353):
`tbl` is the slot-occupancy array (entry `-1` when unfilled, the raw index
once filled), `out` is `tbl_out` built in raw-position order. -/
def mkskewLoop (secs sk : Nat) (nudge : Int) :
    Nat → Nat → List Int → List Nat → Option (List Nat)
  | 0, _, _, out => some out
  | rem+1, s, tbl, out =>
      match probe tbl secs nudge secs (s * sk % secs) with
      | none => none
      | some sn => mkskewLoop secs sk nudge rem (s+1) (tbl.set sn (s : Int)) (out ++ [sn])

/-- `mkskew(skew, secs)` (lines 331-363): builds the physical sector skew
table.  `tbl_out[s]` is the track slot receiving raw read position `s`. -/
def mkskew (skew : Int) (secs : Nat) : Option (List Nat) :=
  let nudge : Int := if skew < 0 then -1 else 1
  let sk : Nat := skew.natAbs
  mkskewLoop secs sk nudge secs 0 (List.replicate secs (-1)) []

/-- Loop invariant of `mkskewLoop` after raw positions `0..s-1` have been
placed: the occupancy array has length `secs`, `out` records `s` pairwise
distinct slots below `secs`, and a slot is marked filled exactly when it
occurs in `out`. -/
def SkewInv (secs s : Nat) (tbl : List Int) (out : List Nat) : Prop :=
  tbl.length = secs ∧ out.length = s ∧ out.Nodup ∧ (∀ x ∈ out, x < secs) ∧
    (∀ j, j < secs → (0 ≤ tbl.getD j 0 ↔ j ∈ out))

/-! ## Geometry record and first-sector offset defaulting -/

/-- The fields of the global `struct args` consumed by the capacity check and
the track materializer.  `cylinders`/`heads`/`sectors`/`length` are `Nat`
because `main` rejects negative values before `process_raw` runs. -/
structure Args where
  cylinders : Nat
  heads : Nat
  sectors : Nat
  length : Nat
  length_code : Nat
  dmode : Nat
  policy : Int
  sectbl : Option (List Nat)
  sectbl2 : Option (List Nat)
  offset1 : Int
  offset2 : Int
  force : Bool
  ignore : Bool
  logdisk : Bool

/-- The policy-dependent offset defaulting at the end of `snoop_media`
(lines 158-164): under policy 2 an unset (`< 0`) `offset1` becomes `0` and an
unset `offset2` becomes the sector count; otherwise an unset `offset1`
becomes `1` and `offset2` is left for `main` to resolve. -/
def snoopOffsets (policy : Int) (sectors : Nat) (offset1 offset2 : Int) : Int × Int :=
  if policy = 2 then
    (if offset1 < 0 then 0 else offset1,
     if offset2 < 0 then (sectors : Int) else offset2)
  else
    (if offset1 < 0 then 1 else offset1, offset2)

/-- The unconditional offset defaulting in `main` (lines 551-556): an unset
`offset1` becomes `1`, an unset `offset2` becomes the resolved `offset1`. -/
def mainOffsets (offset1 offset2 : Int) : Int × Int :=
  let o1 := if offset1 < 0 then 1 else offset1
  (o1, if offset2 < 0 then o1 else offset2)

/-- Offset resolution along `main`'s control flow: `snoop_media`'s defaults
run only when the image is a self-describing "logdisk" file, then `main`'s
defaults run unconditionally. -/
def resolveOffsets (logdisk : Bool) (policy : Int) (sectors : Nat)
    (offset1 offset2 : Int) : Int × Int :=
  let p := if logdisk then snoopOffsets policy sectors offset1 offset2
           else (offset1, offset2)
  mainOffsets p.1 p.2

/-! ## Raw source file and track materialization (`read_track`, `process_raw`) -/

/-- The raw source file: a byte at every offset plus a size.  Reads follow
POSIX regular-file semantics: a read at `pos` of `len` bytes returns
`min len (size - pos)` bytes (zero at or past end of file, never an error). -/
structure RawFile where
  data : Nat → Nat
  size : Nat

/-- Number of bytes a `read` of `len` bytes at offset `pos` returns. -/
def readCount (f : RawFile) (pos len : Nat) : Nat := min len (f.size - pos)

/-- The bytes a `read` of `len` bytes at offset `pos` returns. -/
def fileRead (f : RawFile) (pos len : Nat) : List Nat :=
  (List.range (readCount f pos len)).map (fun i => f.data (pos + i))

/-- One `sector_t` as populated by `read_track` (lines 208-229).
`good` models `status == SECTOR_GOOD`. -/
structure SectorRec where
  log_cyl : Nat
  log_head : Nat
  log_sector : Int
  deleted : Bool
  good : Bool
  data : List Nat

/-- One `track_t` as populated by `read_track` (lines 195-200).  The
`sectors` slot array holds `none` for slots the loop never wrote. -/
structure TrackRec where
  dmode : Nat
  phys_cyl : Nat
  phys_head : Nat
  num_sectors : Nat
  sector_size_code : Nat
  sectors : List (Option SectorRec)

/-- The file position `read_track` starts reading from (lines 185-194):
under policy 0 ("continuation") it seeks to
`(hd * cylinders + cyl) * sectors * length`, otherwise it reads from the
current position. -/
def readStartPos (a : Args) (cyl hd : Nat) (pos : Nat) : Nat :=
  if a.policy = 0 then (hd * a.cylinders + cyl) * a.sectors * a.length else pos

/-- Slot selection for raw position `s` (lines 202-207): head ≥ 1 uses the
side-2 skew table when present, else the side-1 table when present, else the
identity. -/
def sectorSlot (a : Args) (hd s : Nat) : Nat :=
  if 0 < hd ∧ a.sectbl2.isSome then (a.sectbl2.getD []).getD s 0
  else if a.sectbl.isSome then (a.sectbl.getD []).getD s 0
  else s

/-- The body of the per-sector loop of `read_track` (lines 201-230): place a
fully populated sector record in slot `sectorSlot a hd s` and advance the
file position by the number of bytes `read` returned.  The C code checks
only `read(...) < 0` (impossible on a regular file) — a short read is not
detected, the sector simply keeps the bytes that were available.  The
`malloc`/`lseek` failure exits cannot occur in this model (allocation always
succeeds; the computed seek offset is non-negative). -/
def readOneSector (a : Args) (cyl hd : Nat) (f : RawFile)
    (st : List (Option SectorRec) × Nat) (s : Nat) : List (Option SectorRec) × Nat :=
  let sn := sectorSlot a hd s
  let sec : SectorRec :=
    { log_cyl := cyl
      log_head := if a.policy = 2 then 0 else hd
      log_sector := (s : Int) + (if 0 < hd then a.offset2 else a.offset1)
      deleted := false
      good := true
      data := fileRead f st.2 a.length }
  (st.1.set sn (some sec), st.2 + readCount f st.2 a.length)

/-- `read_track` (lines 171-231): seek per policy, then read
`sectors` sector payloads in raw order into their slots.  Returns the track
record and the file position after the last read. -/
def read_track (a : Args) (cyl hd : Nat) (f : RawFile) (pos0 : Nat) :
    TrackRec × Nat :=
  let pos := readStartPos a cyl hd pos0
  let r := (List.range a.sectors).foldl (readOneSector a cyl hd f)
            (List.replicate a.sectors none, pos)
  ({ dmode := a.dmode, phys_cyl := cyl, phys_head := hd,
     num_sectors := a.sectors, sector_size_code := a.length_code,
     sectors := r.1 }, r.2)

/-- The `(cylinder, head)` pairs in the order the loop in `process_raw`
(lines 297-308) visits them: cylinder-major, head-minor. -/
def trackPairs (cyls heads : Nat) : List (Nat × Nat) :=
  (List.range cyls).flatMap (fun c => (List.range heads).map (fun h => (c, h)))

/-- The track loop of `process_raw` (lines 297-308): materialize every track
in order, threading the file position, and emit them to the serializer in
that same order. -/
def process_tracks (a : Args) (f : RawFile) : List TrackRec :=
  ((trackPairs a.cylinders a.heads).foldl
    (fun st p =>
      let r := read_track a p.1 p.2 f st.2
      (st.1 ++ [r.1], r.2))
    ([], 0)).1

/-- The declared capacity `cylinders * heads * sectors * length`
(`process_raw` line 241). -/
def declaredCap (a : Args) : Int :=
  ((a.cylinders * a.heads * a.sectors * a.length : Nat) : Int)

/-- The source length used by the capacity check: the file size, minus the
128-byte trailing descriptor for logdisk files (lines 242-244). -/
def effectiveSize (a : Args) (fsize : Nat) : Int :=
  (fsize : Int) - (if a.logdisk then 128 else 0)

/-- The capacity validation of `process_raw` (lines 240-250): too-large
fails unless `ignore` is set, too-small fails unless `force` is set. -/
def checkCapacity (a : Args) (fsize : Nat) : Except String Unit :=
  if ¬ a.ignore ∧ declaredCap a < effectiveSize a fsize then
    Except.error "image file too large"
  else if ¬ a.force ∧ effectiveSize a fsize < declaredCap a then
    Except.error "image file too small"
  else Except.ok ()

/-- `process_raw` (lines 233-318), restricted to the modelled core: validate
capacity, then materialize and emit all tracks. -/
def process_raw (a : Args) (f : RawFile) : Except String (List TrackRec) :=
  match checkCapacity a f.size with
  | Except.error e => Except.error e
  | Except.ok _ => Except.ok (process_tracks a f)

/-! ## The `snoop_media` token scan (lines 113-157) -/

/-- ASCII decimal digit test, on bytes as numbers. -/
def isDigitByte (c : Nat) : Bool := 48 ≤ c && c ≤ 57

/-- The `strtoul(&buf[e], &end, 10)` call, modelled as a base-10 digit-run
scan (the logdisk grammar puts a digit run directly at `e`; `strtoul`'s
whitespace/sign handling is not modelled).  The buffer is a byte function
`Nat → Nat` — indices at or past 128 read the memory adjacent to the
128-byte array.  Returns the parsed value, the index of the first non-digit
(`end`), and the list of indices examined. -/
def scanNum (buf : Nat → Nat) : Nat → Nat → Nat → Nat × Nat × List Nat
  | 0, i, acc => (acc, i, [])
  | fuel+1, i, acc =>
      if isDigitByte (buf i) then
        let r := scanNum buf fuel (i+1) (acc * 10 + (buf i - 48))
        (r.1, r.2.1, i :: r.2.2)
      else (acc, i, [i])

/-- The geometry fields `snoop_media` assigns from descriptor tokens. -/
structure SnoopGeom where
  size : Int
  length : Int
  sectors : Int
  heads : Int
  cylinders : Int
  mfm : Int
  policy : Int

/-- The token scan loop of `snoop_media` (lines 113-157).  Faithful to the C
loop condition `buf[e] != '\n' && buf[e] != '\0' && e < sizeof(buf)`: the
byte at `e` is examined (and recorded in the access list) before the bound
`e < 128` is tested.  `none` in the first component models the
`errno = EINVAL` fatal exit on an unrecognized token letter.  The second
component is the list of all buffer indices examined, in order. -/
def snoopLoop (buf : Nat → Nat) : Nat → Nat → SnoopGeom → List Nat →
    Option SnoopGeom × List Nat
  | 0, _, g, acc => (some g, acc)
  | fuel+1, e, g, acc =>
      let c := buf e
      let acc := acc ++ [e]
      if c ≠ 10 ∧ c ≠ 0 ∧ e < 128 then
        let r := scanNum buf 256 e 0
        let p : Int := (r.1 : Int)
        let endi := r.2.1
        let acc := acc ++ r.2.2
        let letter := buf endi
        if letter = 109 then snoopLoop buf fuel (endi+1) { g with size := p } acc
        else if letter = 122 then snoopLoop buf fuel (endi+1) { g with length := p } acc
        else if letter = 112 then snoopLoop buf fuel (endi+1) { g with sectors := p } acc
        else if letter = 115 then snoopLoop buf fuel (endi+1) { g with heads := p } acc
        else if letter = 116 then snoopLoop buf fuel (endi+1) { g with cylinders := p } acc
        else if letter = 100 then snoopLoop buf fuel (endi+1) { g with mfm := p } acc
        else if letter = 105 then snoopLoop buf fuel (endi+1) { g with policy := p } acc
        else if letter = 108 then snoopLoop buf fuel (endi+1) g acc
        else if letter = 104 then snoopLoop buf fuel (endi+1) g acc
        else (none, acc)
      else (some g, acc)

/-- The geometry record as initialized by `main` before `snoop_media` runs. -/
def initGeom : SnoopGeom :=
  { size := -1, length := -1, sectors := -1, heads := -1, cylinders := -1,
    mfm := 0, policy := 1 }

/-- All buffer indices the `snoop_media` token scan examines, starting from
`e = 0` (fuel 256 is ample: each iteration advances `e` and the loop body
runs only while `e < 128`). -/
def snoopAccesses (buf : Nat → Nat) : List Nat :=
  (snoopLoop buf 256 0 initGeom []).2

/-! ## Concrete scenarios -/

/-- The value of `mkskew (-4) 10` (proved below): the Kaypro skew table. -/
def scenATbl : List Nat := [0, 4, 8, 2, 6, 9, 3, 7, 1, 5]

/-- Scenario A geometry: cylinders 40, heads 2, sectors 10, 512-byte sectors,
policy 2 (Kaypro paired), skew -4 for both heads (`sectbl2` stays null when
no `-K` is given, so head 1 falls back to `sectbl`), first-sector offsets
resolved by the policy-2 defaults of `snoop_media`. -/
def scenAArgs : Args :=
  { cylinders := 40, heads := 2, sectors := 10, length := 512, length_code := 2,
    dmode := 0, policy := 2, sectbl := some scenATbl, sectbl2 := none,
    offset1 := (snoopOffsets 2 10 (-1) (-1)).1,
    offset2 := (snoopOffsets 2 10 (-1) (-1)).2,
    force := false, ignore := false, logdisk := false }

/-- Scenario A source file: exactly 40*2*10*512 = 409600 bytes. -/
def scenAFile : RawFile := { data := fun i => i % 256, size := 409600 }

/-- Short-read scenario: one track of two 128-byte sectors declared, but the
source holds only 192 bytes, converted under `force`. -/
def exShortArgs : Args :=
  { cylinders := 1, heads := 1, sectors := 2, length := 128, length_code := 0,
    dmode := 0, policy := 1, sectbl := none, sectbl2 := none,
    offset1 := 1, offset2 := 1, force := true, ignore := false, logdisk := false }

/-- The 192-byte source file of the short-read scenario. -/
def exShortFile : RawFile := { data := fun i => i % 256, size := 192 }

/-- A policy-0 geometry used to instantiate the seek-offset theorem. -/
def exP0Args : Args :=
  { cylinders := 40, heads := 2, sectors := 10, length := 512, length_code := 2,
    dmode := 0, policy := 0, sectbl := none, sectbl2 := none,
    offset1 := 1, offset2 := 1, force := false, ignore := false, logdisk := false }

/-- A small geometry used to instantiate the unknown-policy theorem. -/
def exPolArgs : Args :=
  { cylinders := 1, heads := 2, sectors := 2, length := 128, length_code := 0,
    dmode := 0, policy := 1, sectbl := none, sectbl2 := none,
    offset1 := 1, offset2 := 1, force := false, ignore := false, logdisk := false }

/-- The matching 512-byte source file for `exPolArgs`. -/
def exPolFile : RawFile := { data := fun i => i % 256, size := 512 }

/-- The 128-byte trailer "1m" repeated 64 times, with no newline or NUL:
every token parses, and after the last one `e = 128`.  Memory adjacent to
the buffer (indices ≥ 128) reads as 0. -/
def bad128 : Nat → Nat := fun i => if i < 128 then (if i % 2 = 0 then 49 else 109) else 0

/-! ## Probe-loop termination and skew-table invariants -/

theorem nudgeStep_lt (secs : Nat) (nudge : Int) (hn : nudge = 1 ∨ nudge = -1)
    (sn : Nat) (hsn : sn < secs) : nudgeStep secs nudge sn < secs := by
  rcases hn with rfl | rfl <;> (unfold nudgeStep; dsimp only; split_ifs <;> omega)

theorem nudgeStep_one (secs sn : Nat) (hsn : sn < secs) :
    nudgeStep secs 1 sn = (sn + 1) % secs := by
  have hmod : (sn + 1) % secs = if sn + 1 = secs then 0 else sn + 1 := by
    split_ifs with h
    · rw [h, Nat.mod_self]
    · exact Nat.mod_eq_of_lt (by omega)
  rw [hmod]
  unfold nudgeStep; dsimp only
  split_ifs <;> omega

theorem nudgeStep_negone (secs sn : Nat) (hsn : sn < secs) :
    nudgeStep secs (-1) sn = (sn + (secs - 1)) % secs := by
  have hmod : (sn + (secs - 1)) % secs = if sn = 0 then secs - 1 else sn - 1 := by
    split_ifs with h
    · subst h
      rw [Nat.zero_add]
      exact Nat.mod_eq_of_lt (by omega)
    · rw [show sn + (secs - 1) = (sn - 1) + 1 * secs by omega, Nat.add_mul_mod_self_right]
      exact Nat.mod_eq_of_lt (by omega)
  rw [hmod]
  unfold nudgeStep; dsimp only
  split_ifs <;> omega

theorem iterate_nudge (secs : Nat) (nudge : Int) (d : Nat)
    (hstep : ∀ x, x < secs → nudgeStep secs nudge x = (x + d) % secs)
    (sn : Nat) (h0 : 0 < secs) (hsn : sn < secs) :
    ∀ i, (nudgeStep secs nudge)^[i] sn = (sn + i * d) % secs := by
  intro i
  induction i with
  | zero => simp [Nat.mod_eq_of_lt hsn]
  | succ i ih =>
      rw [Function.iterate_succ_apply', ih, hstep _ (Nat.mod_lt _ h0), Nat.mod_add_mod]
      congr 1
      ring

theorem reach_plus (secs sn j : Nat) (h0 : 0 < secs) (hsn : sn < secs) (hj : j < secs) :
    ∃ i, i < secs ∧ (sn + i * 1) % secs = j := by
  rcases le_or_lt sn j with h | h
  · refine ⟨j - sn, by omega, ?_⟩
    rw [Nat.mul_one, Nat.mod_eq_of_lt (by omega)]
    omega
  · refine ⟨secs + j - sn, by omega, ?_⟩
    rw [Nat.mul_one, show sn + (secs + j - sn) = j + 1 * secs by omega,
      Nat.add_mul_mod_self_right, Nat.mod_eq_of_lt hj]

theorem reach_minus (secs sn j : Nat) (h0 : 0 < secs) (hsn : sn < secs) (hj : j < secs) :
    ∃ i, i < secs ∧ (sn + i * (secs - 1)) % secs = j := by
  obtain ⟨i, hi, hij⟩ := reach_plus secs j sn h0 hj hsn
  refine ⟨i, hi, ?_⟩
  have key : i + i * (secs - 1) = i * secs := by
    obtain ⟨t, rfl⟩ : ∃ t, secs = t + 1 := ⟨secs - 1, by omega⟩
    rw [Nat.add_sub_cancel, Nat.mul_succ]
    omega
  rw [← hij, Nat.mod_add_mod, Nat.mul_one, Nat.add_assoc, key,
    Nat.add_mul_mod_self_right, Nat.mod_eq_of_lt hj]

theorem probe_finds (tbl : List Int) (secs : Nat) (nudge : Int)
    (hn : nudge = 1 ∨ nudge = -1) :
    ∀ fuel sn, sn < secs →
      (∃ i, i < fuel ∧ tbl.getD ((nudgeStep secs nudge)^[i] sn) 0 < 0) →
      ∃ m, probe tbl secs nudge fuel sn = some m ∧ m < secs ∧ tbl.getD m 0 < 0 := by
  intro fuel
  induction fuel with
  | zero => rintro sn hsn ⟨i, hi, -⟩; omega
  | succ fuel ih =>
      rintro sn hsn ⟨i, hi, hneg⟩
      by_cases h : 0 ≤ tbl.getD sn 0
      · have hi0 : i ≠ 0 := by
          rintro rfl
          rw [Function.iterate_zero_apply] at hneg
          omega
        obtain ⟨i', rfl⟩ : ∃ i', i = i' + 1 := ⟨i - 1, by omega⟩
        rw [Function.iterate_succ_apply] at hneg
        obtain ⟨m, hm, hmlt, hmneg⟩ := ih (nudgeStep secs nudge sn)
          (nudgeStep_lt secs nudge hn sn hsn) ⟨i', by omega, hneg⟩
        refine ⟨m, ?_, hmlt, hmneg⟩
        simp only [probe]
        rw [if_pos h]
        exact hm
      · refine ⟨sn, ?_, hsn, by omega⟩
        simp only [probe]
        rw [if_neg h]

theorem probe_reaches (tbl : List Int) (secs : Nat) (nudge : Int)
    (hn : nudge = 1 ∨ nudge = -1) (sn : Nat) (hsn : sn < secs)
    (j : Nat) (hj : j < secs) (hun : tbl.getD j 0 < 0) :
    ∃ m, probe tbl secs nudge secs sn = some m ∧ m < secs ∧ tbl.getD m 0 < 0 := by
  have h0 : 0 < secs := by omega
  apply probe_finds tbl secs nudge hn secs sn hsn
  rcases hn with rfl | rfl
  · obtain ⟨i, hi, heq⟩ := reach_plus secs sn j h0 hsn hj
    refine ⟨i, hi, ?_⟩
    rw [iterate_nudge secs 1 1 (fun x hx => nudgeStep_one secs x hx) sn h0 hsn i, heq]
    exact hun
  · obtain ⟨i, hi, heq⟩ := reach_minus secs sn j h0 hsn hj
    refine ⟨i, hi, ?_⟩
    rw [iterate_nudge secs (-1) (secs - 1) (fun x hx => nudgeStep_negone secs x hx) sn h0 hsn i,
      heq]
    exact hun

theorem skewInv_init (secs : Nat) : SkewInv secs 0 (List.replicate secs (-1)) [] := by
  refine ⟨List.length_replicate .., rfl, List.nodup_nil, by simp, ?_⟩
  intro j hj
  rw [List.getD_eq_getElem _ _ (by simpa using hj), List.getElem_replicate]
  simp

theorem skewInv_unfilled (secs s : Nat) (tbl : List Int) (out : List Nat)
    (hinv : SkewInv secs s tbl out) (hs : s < secs) :
    ∃ j, j < secs ∧ tbl.getD j 0 < 0 := by
  obtain ⟨hlen, hout, hnd, hbnd, hiff⟩ := hinv
  by_contra hall
  push_neg at hall
  have hsub : List.range secs ⊆ out := by
    intro j hj
    rw [List.mem_range] at hj
    exact (hiff j hj).mp (hall j hj)
  have := (List.subperm_of_subset (List.nodup_range secs) hsub).length_le
  rw [List.length_range, hout] at this
  omega

theorem skewInv_step (secs s : Nat) (tbl : List Int) (out : List Nat)
    (hinv : SkewInv secs s tbl out) (m : Nat) (hm : m < secs)
    (hneg : tbl.getD m 0 < 0) :
    SkewInv secs (s+1) (tbl.set m (s : Int)) (out ++ [m]) := by
  obtain ⟨hlen, hout, hnd, hbnd, hiff⟩ := hinv
  have hmnot : m ∉ out := fun hmem => by
    have := (hiff m hm).mpr hmem
    omega
  refine ⟨by rw [List.length_set, hlen], by simp [hout], ?_, ?_, ?_⟩
  · rw [List.nodup_append]
    exact ⟨hnd, List.nodup_singleton m, List.disjoint_singleton.mpr hmnot⟩
  · intro x hx
    rcases List.mem_append.mp hx with hx | hx
    · exact hbnd x hx
    · rw [List.mem_singleton.mp hx]
      exact hm
  · intro j hj
    have hjlen : j < (tbl.set m (s : Int)).length := by rw [List.length_set, hlen]; exact hj
    rw [List.getD_eq_getElem _ _ hjlen, List.getElem_set]
    by_cases hjm : m = j
    · subst hjm
      simp
    · rw [if_neg hjm]
      rw [← List.getD_eq_getElem _ 0 (by rw [hlen]; exact hj)]
      rw [hiff j hj]
      simp [List.mem_append]
      intro hjm2
      exact absurd hjm2.symm hjm

theorem mkskewLoop_ok (secs sk : Nat) (nudge : Int) (hn : nudge = 1 ∨ nudge = -1) :
    ∀ rem s tbl out, s + rem = secs → SkewInv secs s tbl out →
      ∃ res, mkskewLoop secs sk nudge rem s tbl out = some res ∧
        res.length = secs ∧ res.Nodup ∧ ∀ x ∈ res, x < secs := by
  intro rem
  induction rem with
  | zero =>
      rintro s tbl out hsum hinv
      obtain ⟨-, hout, hnd, hbnd, -⟩ := hinv
      exact ⟨out, rfl, by omega, hnd, hbnd⟩
  | succ rem ih =>
      rintro s tbl out hsum hinv
      have hs : s < secs := by omega
      have h0 : 0 < secs := by omega
      obtain ⟨j, hj, hjneg⟩ := skewInv_unfilled secs s tbl out hinv hs
      obtain ⟨m, hm, hmlt, hmneg⟩ := probe_reaches tbl secs nudge hn
        (s * sk % secs) (Nat.mod_lt _ h0) j hj hjneg
      obtain ⟨res, hres, hp⟩ := ih (s+1) (tbl.set m (s : Int)) (out ++ [m])
        (by omega) (skewInv_step secs s tbl out hinv m hmlt hmneg)
      refine ⟨res, ?_, hp⟩
      simp only [mkskewLoop]
      rw [hm]
      exact hres

/-! ## Claim theorems -/

/-- Claim C1: for every sector count `n ≥ 1` and every nonzero integer skew
`k` (including `k` with `|k|` dividing `n` and `|k| > n`), the skew table
built by `mkskew(k, n)` is a permutation of `0..n-1`: every index in
`0..n-1` appears exactly once in the output array, and the builder never
fails. -/
theorem mkskew_builds_permutation (k : Int) (n : Nat) (hn : 1 ≤ n) (hk : k ≠ 0) :
    ∃ out, mkskew k n = some out ∧ out.Perm (List.range n) := by
  obtain ⟨res, hres, hlen, hnd, hbnd⟩ := mkskewLoop_ok n k.natAbs
    (if k < 0 then -1 else 1) (by split_ifs <;> simp) n 0
    (List.replicate n (-1)) [] (by omega) (skewInv_init n)
  refine ⟨res, hres, ?_⟩
  refine (List.subperm_of_subset hnd ?_).perm_of_length_le (by rw [List.length_range, hlen])
  intro x hx
  rw [List.mem_range]
  exact hbnd x hx

/-- Witness for C1 at the Kaypro parameters `k = -4`, `n = 10`. -/
theorem mkskew_builds_permutation_witness :
    1 ≤ 10 ∧ (-4 : Int) ≠ 0 ∧
      ∃ out, mkskew (-4) 10 = some out ∧ out.Perm (List.range 10) :=
  ⟨by decide, by decide, mkskew_builds_permutation (-4) 10 (by decide) (by decide)⟩

/-- Claim C8: construction of the skew table always terminates for every
sector count `n ≥ 1` and every nonzero integer skew, including skews whose
magnitude divides `n`: the collision-resolution probe loop always reaches
an unfilled slot, so `mkskew` returns a table (running out of probe fuel
would model the C `while` loop cycling forever). -/
theorem mkskew_construction_terminates (k : Int) (n : Nat) (hn : 1 ≤ n) (hk : k ≠ 0) :
    (mkskew k n).isSome = true := by
  obtain ⟨res, hres, -⟩ := mkskewLoop_ok n k.natAbs
    (if k < 0 then -1 else 1) (by split_ifs <;> simp) n 0
    (List.replicate n (-1)) [] (by omega) (skewInv_init n)
  have hunfold : mkskew k n =
      mkskewLoop n k.natAbs (if k < 0 then -1 else 1) n 0 (List.replicate n (-1)) [] := rfl
  rw [hunfold, hres]
  rfl

/-- Witness for C8 at `k = 3`, `n = 9`, where the skew magnitude divides the
sector count and the naive formula collides. -/
theorem mkskew_construction_terminates_witness :
    1 ≤ 9 ∧ (3 : Int) ≠ 0 ∧ (mkskew 3 9).isSome = true :=
  ⟨by decide, by decide, mkskew_construction_terminates 3 9 (by decide) (by decide)⟩

/-- Claim C4: the capacity validator passes whenever the effective source
size equals the declared capacity regardless of flags; it fails fatally with
"image file too large" exactly when the size exceeds the capacity and the
ignore flag is unset, and with "image file too small" exactly when the size
is below the capacity and the force flag is unset — so the two overrides are
independent. -/
theorem capacity_validator_spec (a : Args) (fsize : Nat) :
    (checkCapacity a fsize = Except.ok () ↔
      (effectiveSize a fsize = declaredCap a ∨
       (declaredCap a < effectiveSize a fsize ∧ a.ignore = true) ∨
       (effectiveSize a fsize < declaredCap a ∧ a.force = true))) ∧
    (checkCapacity a fsize = Except.error "image file too large" ↔
      a.ignore = false ∧ declaredCap a < effectiveSize a fsize) ∧
    (checkCapacity a fsize = Except.error "image file too small" ↔
      a.force = false ∧ effectiveSize a fsize < declaredCap a) := by
  unfold checkCapacity
  split_ifs with h1 h2
  · obtain ⟨hig, hlt⟩ := h1
    rw [Bool.not_eq_true] at hig
    refine ⟨?_, ?_, ?_⟩
    · constructor
      · intro hc
        cases hc
      · rintro (he | ⟨hlt2, hi⟩ | ⟨hlt2, hf⟩)
        · omega
        · rw [hig] at hi
          cases hi
        · omega
    · exact ⟨fun _ => ⟨hig, hlt⟩, fun _ => rfl⟩
    · constructor
      · intro hc
        injection hc with hstr
        exact absurd hstr (by decide)
      · rintro ⟨hf, hlt2⟩
        omega
  · obtain ⟨hfo, hlt⟩ := h2
    rw [Bool.not_eq_true] at hfo
    refine ⟨?_, ?_, ?_⟩
    · constructor
      · intro hc
        cases hc
      · rintro (he | ⟨hlt2, hi⟩ | ⟨hlt2, hf⟩)
        · omega
        · omega
        · rw [hfo] at hf
          cases hf
    · constructor
      · intro hc
        injection hc with hstr
        exact absurd hstr (by decide)
      · rintro ⟨hig, hlt2⟩
        omega
    · exact ⟨fun _ => ⟨hfo, hlt⟩, fun _ => rfl⟩
  · refine ⟨?_, ?_, ?_⟩
    · constructor
      · intro _
        by_cases hlt : declaredCap a < effectiveSize a fsize
        · have hig : a.ignore = true := by
            by_contra hig
            exact h1 ⟨hig, hlt⟩
          exact Or.inr (Or.inl ⟨hlt, hig⟩)
        · by_cases hlt2 : effectiveSize a fsize < declaredCap a
          · have hfo : a.force = true := by
              by_contra hfo
              exact h2 ⟨hfo, hlt2⟩
            exact Or.inr (Or.inr ⟨hlt2, hfo⟩)
          · exact Or.inl (by omega)
      · intro _
        rfl
    · constructor
      · intro hc
        cases hc
      · rintro ⟨hig, hlt⟩
        exact absurd ⟨by simp [hig], hlt⟩ h1
    · constructor
      · intro hc
        cases hc
      · rintro ⟨hfo, hlt⟩
        exact absurd ⟨by simp [hfo], hlt⟩ h2

/-- Claim C5: under policy 0 ("continuation") the materializer starts
reading track `(cyl, hd)` at absolute offset
`(hd * cylinders + cyl) * sectors * length`; in particular for cylinder 5,
head 1, 40 cylinders the offset is `(1*40+5) * sectors * length`, not the
sequential `(5*2+1) * sectors * length`. -/
theorem policy0_seek_offset (a : Args) (cyl hd pos : Nat) (h : a.policy = 0) :
    readStartPos a cyl hd pos = (hd * a.cylinders + cyl) * a.sectors * a.length ∧
    (a.cylinders = 40 → 0 < a.sectors * a.length →
      readStartPos a 5 1 pos = (1 * 40 + 5) * (a.sectors * a.length) ∧
      readStartPos a 5 1 pos ≠ (5 * 2 + 1) * (a.sectors * a.length)) := by
  refine ⟨by rw [readStartPos, if_pos h], fun h40 hpos => ⟨?_, ?_⟩⟩
  · rw [readStartPos, if_pos h, h40]; ring
  · rw [readStartPos, if_pos h, h40]
    intro heq
    have hexp : (1 * 40 + 5) * a.sectors * a.length = 45 * (a.sectors * a.length) := by ring
    rw [hexp] at heq
    omega

/-- Witness for C5 at `exP0Args` (policy 0, 40 cylinders, 10 sectors of 512
bytes), cylinder 5, head 1. -/
theorem policy0_seek_offset_witness :
    readStartPos exP0Args 5 1 0 = (1 * 40 + 5) * (exP0Args.sectors * exP0Args.length) ∧
    readStartPos exP0Args 5 1 0 ≠ (5 * 2 + 1) * (exP0Args.sectors * exP0Args.length) :=
  (policy0_seek_offset exP0Args 5 1 0 rfl).2 rfl (by decide)

/-- Claim C6: when `snoop_media` resolves the side policy to 2 ("alternate
start"), an unspecified head-0 offset defaults to 0 and an unspecified
head-1 offset defaults to the sector count; for any other resolved policy an
unspecified head-0 offset defaults to 1 and the head-1 offset is resolved
later (by `main`) to equal head-0's; explicit (non-negative) overrides take
precedence over all of these defaults. -/
theorem snoop_offset_defaults (policy : Int) (n a b : Nat) (hp : policy ≠ 2) :
    snoopOffsets 2 n (-1) (-1) = (0, (n : Int)) ∧
    mainOffsets (snoopOffsets policy n (-1) (-1)).1 (snoopOffsets policy n (-1) (-1)).2 =
      (1, 1) ∧
    mainOffsets (snoopOffsets policy n (a : Int) (-1)).1
      (snoopOffsets policy n (a : Int) (-1)).2 = ((a : Int), (a : Int)) ∧
    snoopOffsets 2 n (a : Int) (-1) = ((a : Int), (n : Int)) ∧
    snoopOffsets 2 n (-1) (b : Int) = (0, (b : Int)) ∧
    mainOffsets (snoopOffsets policy n (a : Int) (b : Int)).1
      (snoopOffsets policy n (a : Int) (b : Int)).2 = ((a : Int), (b : Int)) := by
  have ha : ¬((a : Int) < 0) := by omega
  have hb : ¬((b : Int) < 0) := by omega
  refine ⟨?_, ?_, ?_, ?_, ?_, ?_⟩ <;>
    simp [snoopOffsets, mainOffsets, hp, ha, hb]

/-- Witness for C6 at policy 7, 10 sectors. -/
theorem snoop_offset_defaults_witness :
    (7 : Int) ≠ 2 ∧ snoopOffsets 2 10 (-1) (-1) = (0, (10 : Int)) ∧
      mainOffsets (snoopOffsets 7 10 (-1) (-1)).1 (snoopOffsets 7 10 (-1) (-1)).2 = (1, 1) :=
  ⟨by decide, (snoop_offset_defaults 7 10 3 5 (by decide)).1,
    (snoop_offset_defaults 7 10 3 5 (by decide)).2.1⟩

/-- Claim C10 (implicit): when geometry comes entirely from explicit
parameters (`logdisk` unset, so `snoop_media` never runs), the first-sector
offset defaults are not policy-dependent: for every policy id, including 2,
an unspecified head-0 offset defaults to 1 and an unspecified head-1 offset
defaults to the head-0 offset; the policy-2 defaults of 0 and `sectors`
apply only on the probed-descriptor path. -/
theorem explicit_geometry_offset_defaults (policy : Int) (n a b : Nat) :
    resolveOffsets false policy n (-1) (-1) = (1, 1) ∧
    resolveOffsets false policy n (a : Int) (-1) = ((a : Int), (a : Int)) ∧
    resolveOffsets false policy n (-1) (b : Int) = (1, (b : Int)) ∧
    resolveOffsets false policy n (a : Int) (b : Int) = ((a : Int), (b : Int)) ∧
    resolveOffsets false 2 n (-1) (-1) = (1, 1) ∧
    resolveOffsets true 2 n (-1) (-1) = (0, (n : Int)) := by
  have ha : ¬((a : Int) < 0) := by omega
  have hb : ¬((b : Int) < 0) := by omega
  refine ⟨?_, ?_, ?_, ?_, ?_, ?_⟩ <;>
    simp [resolveOffsets, snoopOffsets, mainOffsets, ha, hb]

theorem read_track_unknown_policy (a : Args) (p : Int) (hp0 : p ≠ 0) (hp2 : p ≠ 2)
    (cyl hd : Nat) (f : RawFile) (pos : Nat) :
    read_track { a with policy := p } cyl hd f pos =
      read_track { a with policy := 1 } cyl hd f pos := by
  have hstart : readStartPos { a with policy := p } cyl hd pos =
      readStartPos { a with policy := 1 } cyl hd pos := by
    simp [readStartPos, hp0]
  have hsec : readOneSector { a with policy := p } cyl hd f =
      readOneSector { a with policy := 1 } cyl hd f := by
    funext st s
    simp [readOneSector, sectorSlot, hp0, hp2]
  unfold read_track
  rw [hstart, hsec]

/-- Claim C7: for every policy id `p` outside `{0, 2}` (including all ids
outside `{0, 1, 2}`), the conversion behaves identically to policy 1: no
seek override, logical head equals physical head, and no error for the
unknown id. -/
theorem unknown_policy_behaves_as_interlaced (a : Args) (f : RawFile) (p : Int)
    (hp0 : p ≠ 0) (hp2 : p ≠ 2) :
    process_raw { a with policy := p } f = process_raw { a with policy := 1 } f := by
  have hcap : checkCapacity { a with policy := p } f.size =
      checkCapacity { a with policy := 1 } f.size := rfl
  have htracks : process_tracks { a with policy := p } f =
      process_tracks { a with policy := 1 } f := by
    unfold process_tracks
    dsimp only
    have hfun : (fun (st : List TrackRec × Nat) (q : Nat × Nat) =>
        let r := read_track { a with policy := p } q.1 q.2 f st.2
        (st.1 ++ [r.1], r.2)) =
        (fun (st : List TrackRec × Nat) (q : Nat × Nat) =>
        let r := read_track { a with policy := 1 } q.1 q.2 f st.2
        (st.1 ++ [r.1], r.2)) := by
      funext st q
      rw [read_track_unknown_policy a p hp0 hp2 q.1 q.2 f st.2]
    rw [hfun]
  unfold process_raw
  rw [hcap, htracks]

/-- Witness for C7 at the unknown policy id 7 on a 2-head geometry. -/
theorem unknown_policy_behaves_as_interlaced_witness :
    (7 : Int) ≠ 0 ∧ (7 : Int) ≠ 2 ∧
      process_raw { exPolArgs with policy := 7 } exPolFile =
        process_raw { exPolArgs with policy := 1 } exPolFile :=
  ⟨by decide, by decide,
    unknown_policy_behaves_as_interlaced exPolArgs exPolFile 7 (by decide) (by decide)⟩

/-! ## Short reads during materialization (C3) -/

theorem sectorFold_data_le (a : Args) (cyl hd : Nat) (f : RawFile) :
    ∀ (l : List Nat) (st : List (Option SectorRec) × Nat),
      (∀ o ∈ st.1, ∀ sec, o = some sec → sec.data.length ≤ a.length) →
      ∀ o ∈ (l.foldl (readOneSector a cyl hd f) st).1, ∀ sec, o = some sec →
        sec.data.length ≤ a.length := by
  intro l
  induction l with
  | nil => intro st hst; simpa using hst
  | cons s l ih =>
      intro st hst
      rw [List.foldl_cons]
      apply ih
      intro o ho sec hosec
      rcases List.mem_or_eq_of_mem_set ho with ho2 | ho2
      · exact hst o ho2 sec hosec
      · subst ho2
        cases hosec
        simp only [fileRead, List.length_map, List.length_range]
        exact Nat.min_le_left _ _

theorem read_track_data_le (a : Args) (cyl hd : Nat) (f : RawFile) (pos : Nat) :
    ∀ o ∈ (read_track a cyl hd f pos).1.sectors, ∀ sec, o = some sec →
      sec.data.length ≤ a.length := by
  unfold read_track
  dsimp only
  apply sectorFold_data_le
  intro o ho sec hosec
  rw [List.eq_of_mem_replicate ho] at hosec
  exact Option.noConfusion hosec

theorem trackFold_data_le (a : Args) (f : RawFile) :
    ∀ (l : List (Nat × Nat)) (st : List TrackRec × Nat),
      (∀ t ∈ st.1, ∀ o ∈ t.sectors, ∀ sec, o = some sec → sec.data.length ≤ a.length) →
      ∀ t ∈ (l.foldl (fun st p =>
          let r := read_track a p.1 p.2 f st.2
          (st.1 ++ [r.1], r.2)) st).1,
        ∀ o ∈ t.sectors, ∀ sec, o = some sec → sec.data.length ≤ a.length := by
  intro l
  induction l with
  | nil => intro st hst; simpa using hst
  | cons q l ih =>
      intro st hst
      rw [List.foldl_cons]
      apply ih
      intro t ht
      rcases List.mem_append.mp ht with ht2 | ht2
      · exact hst t ht2
      · rw [List.mem_singleton.mp ht2]
        exact read_track_data_le a q.1 q.2 f st.2

/-- Counterexample to claim C3 as stated: with the force flag, a 192-byte
source converted as one track of two 128-byte sectors completes without any
error — the second sector's `read` returns only 64 bytes (a short read), no
abort happens, and the track holding the short sector is handed to the
serializer. -/
theorem short_read_not_fatal_counterexample :
    process_raw exShortArgs exShortFile = Except.ok (process_tracks exShortArgs exShortFile) ∧
    (process_tracks exShortArgs exShortFile).map
      (fun t => t.sectors.map (fun o => o.map (fun sec => sec.data.length))) =
      [[some 128, some 64]] ∧
    exShortArgs.length = 128 := ⟨rfl, by decide, rfl⟩

/-- Claim C3 as amended: a negative `read` return, a failed seek, or a
failed allocation is fatal (those are the only exits in `read_track`), but a
short read — fewer than `sector_length` bytes with a non-negative return —
is not detected: whenever the capacity check passes (for example under the
force flag), materialization completes with no error, every track is handed
to the serializer, and each sector holds at most `sector_length` bytes
(fewer at end of file). -/
theorem short_read_tolerated (a : Args) (f : RawFile)
    (hcap : checkCapacity a f.size = Except.ok ()) :
    process_raw a f = Except.ok (process_tracks a f) ∧
    ∀ t ∈ process_tracks a f, ∀ o ∈ t.sectors, ∀ sec, o = some sec →
      sec.data.length ≤ a.length := by
  constructor
  · unfold process_raw
    rw [hcap]
  · unfold process_tracks
    apply trackFold_data_le
    intro t ht
    simp at ht

/-- Witness for the amended C3 at the short-read scenario. -/
theorem short_read_tolerated_witness :
    checkCapacity exShortArgs exShortFile.size = Except.ok () ∧
    (process_raw exShortArgs exShortFile =
        Except.ok (process_tracks exShortArgs exShortFile) ∧
      ∀ t ∈ process_tracks exShortArgs exShortFile, ∀ o ∈ t.sectors, ∀ sec,
        o = some sec → sec.data.length ≤ exShortArgs.length) :=
  ⟨rfl, short_read_tolerated exShortArgs exShortFile rfl⟩

/-! ## End-to-end scenario A (C2) -/

/-- Claim C2: with cylinders 40, heads 2, sectors 10, 512-byte sectors,
policy 2, skew -4, and a source of exactly 40*2*10*512 bytes, the conversion
emits 80 track records in cylinder-major, head-minor order; every sector
record has logical head 0; the sector number of raw position `s` is `s` on
head 0 and `s + 10` (the policy-2 default offset, the sector count) on
head 1; and raw position `s` lands in slot `mkskew(-4, 10)[s]`. -/
theorem scenarioA_conversion :
    process_raw scenAArgs scenAFile = Except.ok (process_tracks scenAArgs scenAFile) ∧
    (process_tracks scenAArgs scenAFile).length = 80 ∧
    (process_tracks scenAArgs scenAFile).map (fun t => (t.phys_cyl, t.phys_head)) =
      trackPairs 40 2 ∧
    (∀ t ∈ process_tracks scenAArgs scenAFile,
      t.sectors.map (Option.map SectorRec.log_head) = List.replicate 10 (some 0)) ∧
    mkskew (-4) 10 = some scenATbl ∧
    (∀ t ∈ process_tracks scenAArgs scenAFile, ∀ s ∈ List.range 10,
      ((t.sectors.getD (scenATbl.getD s 0) none).map SectorRec.log_sector) =
        some ((s : Int) + (if 0 < t.phys_head then 10 else 0))) :=
  ⟨rfl, by decide, by decide, by decide, by decide, by decide⟩

/-! ## The descriptor scan reads past the buffer (C9) -/

/-- Claim C9 is violated by the code: on the 128-byte trailer consisting of
"1m" 64 times with no newline or NUL, the token scan examines index 128 —
one byte past the buffer — because the loop condition reads `buf[e]` before
testing `e < sizeof(buf)`.  The scan still completes without a parse
error. -/
theorem snoop_scan_reads_index_128 :
    128 ∈ snoopAccesses bad128 ∧
    (snoopLoop bad128 256 0 initGeom []).1.isSome = true :=
  ⟨by decide, by decide⟩
